import Mathlib

/-!
Verification of the Labour-Link labor/revenue calculation engine.

The TypeScript source is shallowly embedded: JavaScript numbers become
rationals, timestamps become integer milliseconds, and a `Date` whose
`getTime()` is `NaN` (an unparseable timestamp) becomes `JsTime.invalid`.
A field that is JS-falsy (null / undefined / empty string) is `none`.
All functions are total by construction, matching the source's
"never raise" discipline.
-/

namespace LabourLink

/-- A parsed JavaScript `Date` as seen through `getTime()`: either a finite
millisecond value or `NaN` (an unparseable timestamp). -/
inductive JsTime where
  | invalid : JsTime
  | valid : Int → JsTime
deriving DecidableEq

/-- Employee record (shared/schema.ts `employees` table / localStorage shape).
`startTime`/`endTime` are `none` when the raw field is JS-falsy (absent), and
`some JsTime.invalid` when present but unparseable. -/
structure Employee where
  id : String := ""
  name : String := ""
  startTime : Option JsTime
  endTime : Option JsTime := none
  revenueCenter : String := ""
  unpaidBreakMinutes : ℚ := 0
  isActive : String := "true"
deriving DecidableEq

/-- Revenue center record (shared/schema.ts `revenueCenters` table). -/
structure RevenueCenter where
  id : String := ""
  name : String
  sales : ℚ
  divisor : ℚ
deriving DecidableEq

/-- `1000 * 60 * 60`, the divisor taking milliseconds to hours. -/
def msPerHour : ℚ := 1000 * 60 * 60

/-- `24 * 60 * 60 * 1000`, the overnight correction in milliseconds. -/
def msPerDay : Int := 24 * 60 * 60 * 1000

/-- Embedding of `calculateEmployeeHours` (client/src/pages/dashboard.tsx,
lines 97-116). `currentTime` is the component's `currentTime` state, always a
valid `Date`. A falsy `startTime` returns 0; an absent `endTime` is replaced
by `currentTime`; a `NaN` start or end returns 0; a negative raw difference
gets 24 hours added; the hours are clamped at 0 before and after subtracting
`unpaidBreakMinutes / 60`. -/
def calculateEmployeeHours (currentTime : Int) (employee : Employee) : ℚ :=
  match employee.startTime with
  | none => 0
  | some st =>
    let endT : JsTime :=
      match employee.endTime with
      | some e => e
      | none => JsTime.valid currentTime
    match st, endT with
    | JsTime.valid s, JsTime.valid e =>
      let diffMs : Int := e - s
      let diffMs : Int := if diffMs < 0 then diffMs + msPerDay else diffMs
      let totalHours : ℚ := max 0 ((diffMs : ℚ) / msPerHour)
      let unpaidBreakHours : ℚ := employee.unpaidBreakMinutes / 60
      max 0 (totalHours - unpaidBreakHours)
    | _, _ => 0

/-- Embedding of `calculateHistoricalHours` (HistoricalLaborTracker component,
lines 28-53). A falsy `startTime` returns 0. A `NaN` start passes the
`start.getTime() > targetTime.getTime()` test (`NaN > x` is false in JS) and
is then caught by the `isNaN` check, returning 0. A truthy `endTime` is
compared with `empEnd.getTime() < targetTime.getTime()` (false for `NaN`), so
a `NaN` end falls back to `targetTime`. No overnight correction here. -/
def calculateHistoricalHours (employee : Employee) (targetTime : Int) : ℚ :=
  match employee.startTime with
  | none => 0
  | some JsTime.invalid => 0
  | some (JsTime.valid s) =>
    if targetTime < s then 0
    else
      let e : Int :=
        match employee.endTime with
        | some (JsTime.valid en) => if en < targetTime then en else targetTime
        | some JsTime.invalid => targetTime
        | none => targetTime
      let totalHours : ℚ := max 0 (((e - s : Int) : ℚ) / msPerHour)
      max 0 (totalHours - employee.unpaidBreakMinutes / 60)

/-- Modelled from the spec: the `hoursAsOf(employee, targetTime)` operation of
§4.4, stated over an employee with a valid start `s`, a parseable-or-absent
end `endT` and break minutes `b`: 0 when `s > targetTime`; otherwise the
effective end is `endT` when present and earlier than `targetTime`, else
`targetTime`; then `b/60` is subtracted and the result clamped at 0. -/
def hoursAsOfSpec (s : Int) (endT : Option Int) (b : ℚ) (targetTime : Int) : ℚ :=
  if targetTime < s then 0
  else
    let e : Int :=
      match endT with
      | some en => if en < targetTime then en else targetTime
      | none => targetTime
    max 0 (((e - s : Int) : ℚ) / msPerHour - b / 60)

/-- Embedding of `perfectHours` (RevenueCenterCard line 155 and
SummaryDashboard lines 15-19): `sales / divisor` only when both are
positive, else 0. -/
def perfectHours (sales divisor : ℚ) : ℚ :=
  if 0 < sales ∧ 0 < divisor then sales / divisor else 0

/-- Embedding of `dollarsPerHour` (RevenueCenterCard line 156 and
SummaryDashboard line 14): `sales / laborHours` only when `laborHours` is
positive, else 0. -/
def dollarsPerHour (sales laborHours : ℚ) : ℚ :=
  if 0 < laborHours then sales / laborHours else 0

/-- `laborEfficiencyDiff` (SummaryDashboard line 21). -/
def laborEfficiencyDiff (totalLaborHours totalPerfectHours : ℚ) : ℚ :=
  totalLaborHours - totalPerfectHours

/-- The labor-efficiency status string (SummaryDashboard lines 22 and 82):
`isOverStaffed = laborEfficiencyDiff > 0`. -/
def staffingStatus (totalLaborHours totalPerfectHours : ℚ) : String :=
  if 0 < laborEfficiencyDiff totalLaborHours totalPerfectHours then
    "Over-staffed"
  else
    "Under-staffed"

/-- The hours figure the efficiency indicator reports (SummaryDashboard lines
84-88): the delta itself when over-staffed, `Math.abs` of it otherwise. -/
def staffingReportedHours (totalLaborHours totalPerfectHours : ℚ) : ℚ :=
  if 0 < laborEfficiencyDiff totalLaborHours totalPerfectHours then
    laborEfficiencyDiff totalLaborHours totalPerfectHours
  else
    |laborEfficiencyDiff totalLaborHours totalPerfectHours|

/-- `LocalStorage.getActiveEmployees` (client/src/lib/localStorage.ts lines
19-21): filter on `isActive === "true"`. -/
def getActiveEmployees (l : List Employee) : List Employee :=
  l.filter (fun e => e.isActive == "true")

/-- The `employees.reduce((sum, emp) => sum + calculateHours(emp), 0)` fold
used for `totalLaborHours` (SummaryDashboard line 12) and for a center card's
`totalHours` (RevenueCenterCard line 152). -/
def sumHours (now : Int) (emps : List Employee) : ℚ :=
  emps.foldl (fun sum e => sum + calculateEmployeeHours now e) 0

/-- A center's labor hours as the dashboard wires it up: `allEmployees`
filtered on `emp.revenueCenter === center.name` (dashboard.tsx line 195),
folded by the card (RevenueCenterCard line 152). -/
def centerLaborHours (now : Int) (emps : List Employee) (center : RevenueCenter) : ℚ :=
  sumHours now (emps.filter (fun e => e.revenueCenter == center.name))

/-- `MemStorage.createEmployee` / `LocalStorage.createEmployee`: spread the
caller's insert payload, then overwrite `id`, `endTime: null`,
`unpaidBreakMinutes: 0`, `isActive: "true"`. Because the overrides come
after the spread, they win even if the payload carried those fields. -/
def createEmployee (id : String) (insertEmployee : Employee) : Employee :=
  { insertEmployee with
      id := id
      endTime := none
      unpaidBreakMinutes := 0
      isActive := "true" }

/-- An employee whose `startTime` parses to `NaN`. -/
def empInvalidStart : Employee :=
  { startTime := some JsTime.invalid }

/-- An employee with a JS-falsy `startTime`. -/
def empMissingStart : Employee :=
  { startTime := none }

/-- An employee whose `endTime` parses to `NaN`. -/
def empInvalidEnd : Employee :=
  { startTime := some (JsTime.valid 0), endTime := some JsTime.invalid }

/-- A plain employee for witnesses: start 09:00, no end, 30-minute break. -/
def empScenarioA : Employee :=
  { startTime := some (JsTime.valid (9 * 3600000)),
    unpaidBreakMinutes := 30 }

/-- Scenario E employee: starts 10:00, ends 14:00, no break. -/
def empScenarioE : Employee :=
  { startTime := some (JsTime.valid (10 * 3600000)),
    endTime := some (JsTime.valid (14 * 3600000)) }

/-- An employee with a valid start `s`, a valid end `e` and break minutes
`b` — the `elapsedHours(start, end, b)` façade of §4.1. -/
def mkEmp (s e : Int) (b : ℚ) : Employee :=
  { startTime := some (JsTime.valid s),
    endTime := some (JsTime.valid e),
    unpaidBreakMinutes := b }

/-- A still-active employee whose recorded start (25:00 in anchored clock
milliseconds, i.e. 01:00 the next day) lies chronologically after `now`. -/
def empMultiDayActive : Employee :=
  { startTime := some (JsTime.valid (25 * 3600000)) }

/-- An active dining employee, 10:00-12:00. -/
def empActiveDining : Employee :=
  { startTime := some (JsTime.valid (10 * 3600000)),
    endTime := some (JsTime.valid (12 * 3600000)),
    revenueCenter := "dining" }

/-- The same dining employee after checkout (`isActive = "false"`). -/
def empCheckedOutDining : Employee :=
  { empActiveDining with isActive := "false" }

/-- The seeded dining revenue center (localStorage defaults). -/
def diningCenter : RevenueCenter :=
  { name := "dining", sales := 0, divisor := 185 }

/-- Collapsing the double clamp of the source into the single clamp of the
spec needs a non-negative break term. -/
theorem max_clamp (d b : ℚ) (hb : 0 ≤ b) :
    max 0 (max 0 d - b) = max 0 (d - b) := by
  rcases le_total 0 d with h | h
  · rw [max_eq_right h]
  · rw [max_eq_left h, zero_sub, max_eq_left (neg_nonpos.mpr hb),
      max_eq_left (by linarith : d - b ≤ 0)]

/-- The clamp-subtract-clamp pipeline is monotone in the raw millisecond
difference. -/
theorem hours_clamp_mono (a b c : ℚ) (hab : a ≤ b) :
    max 0 (max 0 (a / msPerHour) - c) ≤ max 0 (max 0 (b / msPerHour) - c) := by
  have hm : (0 : ℚ) < msPerHour := by norm_num [msPerHour]
  have hdiv : a / msPerHour ≤ b / msPerHour := by
    rw [div_eq_mul_inv, div_eq_mul_inv]
    exact mul_le_mul_of_nonneg_right hab (inv_nonneg.mpr hm.le)
  exact max_le_max le_rfl (sub_le_sub_right (max_le_max le_rfl hdiv) c)

/-- Every historical-hours result is non-negative. -/
theorem calculateHistoricalHours_nonneg (e : Employee) (t : Int) :
    0 ≤ calculateHistoricalHours e t := by
  unfold calculateHistoricalHours
  rcases h : e.startTime with _ | st
  · simp
  · cases st
    · simp
    · dsimp only
      split
      · exact le_rfl
      · exact le_max_left 0 _

/-- The `reduce((sum, emp) => sum + calculateHours(emp), 0)` fold is the sum
of the mapped hours. -/
theorem sumHours_eq_map_sum (now : Int) (l : List Employee) :
    sumHours now l = (l.map (calculateEmployeeHours now)).sum := by
  suffices h : ∀ a : ℚ, l.foldl (fun sum e => sum + calculateEmployeeHours now e) a
      = a + (l.map (calculateEmployeeHours now)).sum by
    simpa [sumHours] using h 0
  induction l with
  | nil => intro a; simp
  | cons e t ih =>
    intro a
    simp [List.foldl_cons, ih, add_assoc]

/-- Prepending one employee to the per-center sums adds that employee's hours
once per center whose name matches. -/
theorem center_sum_cons (now : Int) (centers : List RevenueCenter)
    (e : Employee) (t : List Employee) :
    (centers.map fun c =>
        (((e :: t).filter fun x => x.revenueCenter == c.name).map
          (calculateEmployeeHours now)).sum).sum
      = (centers.countP fun c => e.revenueCenter == c.name : ℕ)
          * calculateEmployeeHours now e
        + (centers.map fun c =>
            ((t.filter fun x => x.revenueCenter == c.name).map
              (calculateEmployeeHours now)).sum).sum := by
  induction centers with
  | nil => simp
  | cons c cs ih =>
    simp only [List.map_cons, List.sum_cons, List.countP_cons, ih]
    by_cases hc : e.revenueCenter == c.name
    · simp only [List.filter_cons, hc, if_pos, List.map_cons, List.sum_cons]
      push_cast
      ring
    · simp only [List.filter_cons, hc, if_neg, Bool.false_eq_true, if_false]
      push_cast
      ring

/-- When every employee's revenue center matches exactly one center of the
list, the flat sum of hours equals the sum of the per-center sums. -/
theorem sum_partition (now : Int) (centers : List RevenueCenter) :
    ∀ emps : List Employee,
      (∀ e ∈ emps, (centers.countP fun c => e.revenueCenter == c.name) = 1) →
      (emps.map (calculateEmployeeHours now)).sum
        = (centers.map fun c =>
            ((emps.filter fun x => x.revenueCenter == c.name).map
              (calculateEmployeeHours now)).sum).sum := by
  intro emps
  induction emps with
  | nil =>
    intro _
    simp
  | cons e t ih =>
    intro hcount
    rw [List.map_cons, List.sum_cons, center_sum_cons, hcount e (by simp),
      ← ih fun x hx => hcount x (by simp [hx])]
    push_cast
    ring

/-- C1: every `calculateEmployeeHours` result is non-negative (totality and
finiteness hold by construction of the embedding), a missing or unparseable
start yields 0, and an unparseable end yields 0. -/
theorem calculateEmployeeHours_total_nonneg (currentTime : Int) (employee : Employee) :
    0 ≤ calculateEmployeeHours currentTime employee ∧
    (employee.startTime = none → calculateEmployeeHours currentTime employee = 0) ∧
    (employee.startTime = some JsTime.invalid →
      calculateEmployeeHours currentTime employee = 0) ∧
    (employee.endTime = some JsTime.invalid →
      calculateEmployeeHours currentTime employee = 0) := by
  unfold calculateEmployeeHours
  refine ⟨?_, ?_, ?_, ?_⟩
  · rcases hst : employee.startTime with _ | st
    · simp
    · rcases het : employee.endTime with _ | en
      · cases st <;> simp [le_max_left]
      · cases st <;> cases en <;> simp [le_max_left]
  · intro h
    simp [h]
  · intro h
    rcases het : employee.endTime with _ | en
    · simp [h, het]
    · cases en <;> simp [h, het]
  · intro h
    rcases hst : employee.startTime with _ | st
    · simp [hst]
    · cases st <;> simp [h, hst]

/-- Witness for C1 at concrete records. -/
theorem calculateEmployeeHours_total_nonneg_witness :
    0 ≤ calculateEmployeeHours (11 * 3600000) empScenarioA ∧
    calculateEmployeeHours 0 empMissingStart = 0 ∧
    calculateEmployeeHours 0 empInvalidStart = 0 ∧
    calculateEmployeeHours 0 empInvalidEnd = 0 :=
  ⟨(calculateEmployeeHours_total_nonneg (11 * 3600000) empScenarioA).1,
   (calculateEmployeeHours_total_nonneg 0 empMissingStart).2.1 rfl,
   (calculateEmployeeHours_total_nonneg 0 empInvalidStart).2.2.1 rfl,
   (calculateEmployeeHours_total_nonneg 0 empInvalidEnd).2.2.2 rfl⟩

/-- C6: `perfectHours` is `sales / divisor` exactly when both arguments are
positive and 0 otherwise (so a zero divisor or zero sales give 0), and
`dollarsPerHour` is `sales / laborHours` exactly when `laborHours` is
positive and 0 otherwise (so zero labor hours give 0); both are total
functions of the embedding, so neither can raise. -/
theorem perfectHours_dollarsPerHour_guarded (sales divisor laborHours : ℚ) :
    (0 < sales → 0 < divisor → perfectHours sales divisor = sales / divisor) ∧
    (¬(0 < sales ∧ 0 < divisor) → perfectHours sales divisor = 0) ∧
    perfectHours sales 0 = 0 ∧
    perfectHours 0 divisor = 0 ∧
    (0 < laborHours → dollarsPerHour sales laborHours = sales / laborHours) ∧
    (¬0 < laborHours → dollarsPerHour sales laborHours = 0) ∧
    dollarsPerHour sales 0 = 0 := by
  unfold perfectHours dollarsPerHour
  refine ⟨fun hs hd => by simp [hs, hd], fun h => by simp [h], by simp, by simp,
    fun h => by simp [h], fun h => by simp [h], by simp⟩

/-- Witness for C6: Scenario C, `sales=1000`, `divisor=200`,
`centerLaborHours=4`. -/
theorem perfectHours_dollarsPerHour_guarded_witness :
    perfectHours 1000 200 = 5 ∧ dollarsPerHour 1000 4 = 250 ∧
    perfectHours 1000 0 = 0 ∧ dollarsPerHour 1000 0 = 0 := by
  have h := perfectHours_dollarsPerHour_guarded 1000 200 4
  refine ⟨?_, ?_, h.2.2.1, h.2.2.2.2.2.2⟩
  · rw [h.1 (by norm_num) (by norm_num)]; norm_num
  · rw [h.2.2.2.2.1 (by norm_num)]; norm_num

/-- C7: the staffing-efficiency signal is `totalLaborHours -
totalPerfectHours`; a positive delta reports "Over-staffed" with the delta as
excess hours, a non-positive delta reports "Under-staffed" with the absolute
value of the delta; with totals 10 and 7 the report is over-staffed by 3, and
with totals 5 and 7 it is under-staffed by 2. -/
theorem staffingSignal_correct (tl tp : ℚ) :
    laborEfficiencyDiff tl tp = tl - tp ∧
    (0 < tl - tp →
      staffingStatus tl tp = "Over-staffed" ∧ staffingReportedHours tl tp = tl - tp) ∧
    (tl - tp ≤ 0 →
      staffingStatus tl tp = "Under-staffed" ∧ staffingReportedHours tl tp = tp - tl) ∧
    staffingStatus 10 7 = "Over-staffed" ∧ staffingReportedHours 10 7 = 3 ∧
    staffingStatus 5 7 = "Under-staffed" ∧ staffingReportedHours 5 7 = 2 := by
  refine ⟨rfl, fun h => ?_, fun h => ?_, ?_, ?_, ?_, ?_⟩
  · constructor <;> simp [staffingStatus, staffingReportedHours, laborEfficiencyDiff, h]
  · have h' : ¬ 0 < tl - tp := not_lt.mpr h
    refine ⟨by simp [staffingStatus, laborEfficiencyDiff, h'], ?_⟩
    simp only [staffingReportedHours, laborEfficiencyDiff, if_neg h']
    rw [abs_of_nonpos h]
    ring
  · norm_num [staffingStatus, laborEfficiencyDiff]
  · norm_num [staffingReportedHours, laborEfficiencyDiff]
  · norm_num [staffingStatus, laborEfficiencyDiff]
  · norm_num [staffingReportedHours, laborEfficiencyDiff]

/-- Witness for C7 at totals 10/7 and 5/7 through the theorem itself. -/
theorem staffingSignal_correct_witness :
    staffingStatus 10 7 = "Over-staffed" ∧ staffingReportedHours 10 7 = 3 ∧
    staffingStatus 5 7 = "Under-staffed" ∧ staffingReportedHours 5 7 = 2 :=
  ⟨((staffingSignal_correct 10 7).2.1 (by norm_num)).1, by
    have h := ((staffingSignal_correct 10 7).2.1 (by norm_num)).2
    rw [h]; norm_num,
   ((staffingSignal_correct 5 7).2.2.1 (by norm_num)).1, by
    have h := ((staffingSignal_correct 5 7).2.2.1 (by norm_num)).2
    rw [h]; norm_num⟩

/-- C9: `createEmployee` always stores `endTime = null`,
`unpaidBreakMinutes = 0`, `isActive = "true"`, whatever the caller's payload
contained in those fields, while keeping the payload's name, start time and
revenue center. -/
theorem createEmployee_defaults (id : String) (insertEmployee : Employee) :
    (createEmployee id insertEmployee).endTime = none ∧
    (createEmployee id insertEmployee).unpaidBreakMinutes = 0 ∧
    (createEmployee id insertEmployee).isActive = "true" ∧
    (createEmployee id insertEmployee).id = id ∧
    (createEmployee id insertEmployee).name = insertEmployee.name ∧
    (createEmployee id insertEmployee).startTime = insertEmployee.startTime ∧
    (createEmployee id insertEmployee).revenueCenter = insertEmployee.revenueCenter :=
  ⟨rfl, rfl, rfl, rfl, rfl, rfl, rfl⟩

/-- C2: on every record whose start parses and whose end is parseable or
absent, with non-negative break minutes, `calculateHistoricalHours` computes
exactly the §4.4 `hoursAsOf` rule (0 before the start; effective end =
`endTime` when present and earlier than the target, else the target; break
subtracted; clamped at 0); concretely a 10:00-14:00 employee yields 2 hours
at 12:00, 0 hours at 09:00 and 4 hours at 16:00. -/
theorem historicalHours_matches_spec :
    (∀ (e : Employee) (s target : Int) (endT : Option Int),
      e.startTime = some (JsTime.valid s) →
      e.endTime = endT.map JsTime.valid →
      0 ≤ e.unpaidBreakMinutes →
      calculateHistoricalHours e target
        = hoursAsOfSpec s endT e.unpaidBreakMinutes target) ∧
    calculateHistoricalHours empScenarioE (12 * 3600000) = 2 ∧
    calculateHistoricalHours empScenarioE (9 * 3600000) = 0 ∧
    calculateHistoricalHours empScenarioE (16 * 3600000) = 4 := by
  refine ⟨?_, ?_, ?_, ?_⟩
  · intro e s target endT hst hend hb
    have hb60 : 0 ≤ e.unpaidBreakMinutes / 60 := by positivity
    rcases endT with _ | en
    · simp only [Option.map_none'] at hend
      by_cases h : target < s
      · simp [calculateHistoricalHours, hoursAsOfSpec, hst, hend, h]
      · simp only [calculateHistoricalHours, hoursAsOfSpec, hst, hend, if_neg h]
        exact max_clamp _ _ hb60
    · simp only [Option.map_some'] at hend
      by_cases h : target < s
      · simp [calculateHistoricalHours, hoursAsOfSpec, hst, hend, h]
      · by_cases hen : en < target
        · simp only [calculateHistoricalHours, hoursAsOfSpec, hst, hend,
            if_neg h, if_pos hen]
          exact max_clamp _ _ hb60
        · simp only [calculateHistoricalHours, hoursAsOfSpec, hst, hend,
            if_neg h, if_neg hen]
          exact max_clamp _ _ hb60
  · norm_num [calculateHistoricalHours, empScenarioE, msPerHour]
  · norm_num [calculateHistoricalHours, empScenarioE, msPerHour]
  · norm_num [calculateHistoricalHours, empScenarioE, msPerHour]

/-- Witness for C2: the Scenario E employee at target 12:00 through the
equivalence itself. -/
theorem historicalHours_matches_spec_witness :
    calculateHistoricalHours empScenarioE (12 * 3600000)
      = hoursAsOfSpec (10 * 3600000) (some (14 * 3600000))
          empScenarioE.unpaidBreakMinutes (12 * 3600000) :=
  historicalHours_matches_spec.1 empScenarioE (10 * 3600000) (12 * 3600000)
    (some (14 * 3600000)) rfl rfl (by norm_num [empScenarioE])

/-- C3 counterexample: with start 01:00 and break 0, moving the end from
00:00 up to 01:00 makes the hours drop from 23 to 0 — the overnight
correction breaks monotonicity in the end timestamp. -/
theorem elapsedHours_not_mono_in_end :
    (0 : Int) ≤ 3600000 ∧
    calculateEmployeeHours 0 (mkEmp 3600000 0 0) = 23 ∧
    calculateEmployeeHours 0 (mkEmp 3600000 3600000 0) = 0 ∧
    ¬ calculateEmployeeHours 0 (mkEmp 3600000 0 0)
        ≤ calculateEmployeeHours 0 (mkEmp 3600000 3600000 0) := by
  norm_num [calculateEmployeeHours, mkEmp, msPerHour, msPerDay]

/-- C3 amended: for a fixed valid start and fixed break minutes, the elapsed
hours are non-decreasing in the end timestamp provided the ends do not fall
before the start (where the overnight wraparound would fire). -/
theorem elapsedHours_mono_in_end (now s e1 e2 : Int) (b : ℚ)
    (hs : s ≤ e1) (h12 : e1 ≤ e2) :
    calculateEmployeeHours now (mkEmp s e1 b)
      ≤ calculateEmployeeHours now (mkEmp s e2 b) := by
  have h1 : ¬ e1 - s < 0 := by omega
  have h2 : ¬ e2 - s < 0 := by omega
  simp only [calculateEmployeeHours, mkEmp, if_neg h1, if_neg h2]
  exact hours_clamp_mono _ _ _ (by exact_mod_cast sub_le_sub_right h12 s)

/-- Witness for C3's amended statement at start 0, ends 1h and 2h. -/
theorem elapsedHours_mono_in_end_witness :
    calculateEmployeeHours 0 (mkEmp 0 3600000 0)
      ≤ calculateEmployeeHours 0 (mkEmp 0 7200000 0) :=
  elapsedHours_mono_in_end 0 0 3600000 7200000 0 (by norm_num) (by norm_num)

/-- C4: the code adds the 24-hour correction whenever the raw difference is
negative, with no same-day restriction: an employee whose recorded start
(25:00 anchored, i.e. 01:00 next day) lies after `now = 02:00` with no end
time is credited 1 hour instead of the 0 the spec prescribes, while the
intended overnight case (23:00 to 01:00) does yield 2 hours. -/
theorem overnightCorrection_always_applied :
    calculateEmployeeHours (2 * 3600000) empMultiDayActive = 1 ∧
    calculateEmployeeHours 0 (mkEmp (23 * 3600000) 3600000 0) = 2 ∧
    (1 : ℚ) ≠ 0 := by
  norm_num [calculateEmployeeHours, empMultiDayActive, mkEmp, msPerHour, msPerDay]

/-- C5 counterexample: with one checked-out dining employee, the summary's
total (over active employees) is 0 while the dining card's center labor
hours (over all employees of the center) sum to 2. -/
theorem summarize_total_counterexample :
    sumHours (18 * 3600000) (getActiveEmployees [empCheckedOutDining]) = 0 ∧
    ([diningCenter].map (centerLaborHours (18 * 3600000) [empCheckedOutDining])).sum = 2 ∧
    (0 : ℚ) ≠ 2 := by
  refine ⟨?_, ?_, by norm_num⟩
  · simp [sumHours, getActiveEmployees, empCheckedOutDining, empActiveDining]
  · norm_num [sumHours, centerLaborHours, diningCenter, empCheckedOutDining,
      empActiveDining, calculateEmployeeHours, msPerHour, msPerDay]

/-- C5 amended: the summary total equals the sum of the per-center labor
hours when every employee in the list is active and their revenue center
matches exactly one center of the list. -/
theorem summarize_total_eq_sum_centers (now : Int) (emps : List Employee)
    (centers : List RevenueCenter)
    (hactive : ∀ e ∈ emps, e.isActive = "true")
    (hcount : ∀ e ∈ emps, (centers.countP fun c => e.revenueCenter == c.name) = 1) :
    sumHours now (getActiveEmployees emps)
      = (centers.map (centerLaborHours now emps)).sum := by
  have hfilter : getActiveEmployees emps = emps := by
    unfold getActiveEmployees
    apply List.filter_eq_self.mpr
    intro a ha
    simp [hactive a ha]
  rw [hfilter, sumHours_eq_map_sum]
  unfold centerLaborHours
  simp only [sumHours_eq_map_sum]
  exact sum_partition now centers emps hcount

/-- Witness for C5's amended statement: one active dining employee and the
dining center. -/
theorem summarize_total_eq_sum_centers_witness :
    sumHours (18 * 3600000) (getActiveEmployees [empActiveDining])
      = ([diningCenter].map (centerLaborHours (18 * 3600000) [empActiveDining])).sum :=
  summarize_total_eq_sum_centers (18 * 3600000) [empActiveDining] [diningCenter]
    (by intro e he; simp at he; subst he; rfl)
    (by intro e he; simp at he; subst he; rfl)

/-- C8 counterexample: an employee with `isActive = "true"` and a stale
`endTime` (10:00-14:00 record at `now = 18:00`) is computed against the
stored `endTime` (4 hours), not against `now` (which would give 8 hours) —
`endTime` presence, not `isActive`, decides the end the engine uses. -/
theorem engine_uses_endTime_counterexample :
    empScenarioE.isActive = "true" ∧
    calculateEmployeeHours (18 * 3600000) empScenarioE = 4 ∧
    calculateEmployeeHours (18 * 3600000) { empScenarioE with endTime := none } = 8 ∧
    (4 : ℚ) ≠ 8 := by
  refine ⟨rfl, ?_, ?_, by norm_num⟩
  · norm_num [calculateEmployeeHours, empScenarioE, msPerHour, msPerDay]
  · norm_num [calculateEmployeeHours, empScenarioE, msPerHour, msPerDay]

/-- C8 amended: `isActive` is authoritative only for membership in the
active set (`getActiveEmployees` keeps exactly the `isActive = "true"`
records, whatever their `endTime`); the hours engine keys on `endTime`
presence — with an `endTime` present the result is independent of the
current time, and only with `endTime` absent does the engine use `now` as
the end. -/
theorem isActive_selects_endTime_computes (l : List Employee) (e : Employee)
    (now1 now2 : Int) :
    (e ∈ getActiveEmployees l ↔ e ∈ l ∧ e.isActive = "true") ∧
    (e.endTime ≠ none →
      calculateEmployeeHours now1 e = calculateEmployeeHours now2 e) ∧
    (e.endTime = none →
      calculateEmployeeHours now1 e
        = calculateEmployeeHours now2 { e with endTime := some (JsTime.valid now1) }) := by
  refine ⟨?_, ?_, ?_⟩
  · simp [getActiveEmployees, List.mem_filter]
  · intro h
    rcases hend : e.endTime with _ | en
    · exact absurd hend h
    · simp only [calculateEmployeeHours, hend]
  · intro h
    simp only [calculateEmployeeHours, h]

/-- Witness for C8's amended statement: the Scenario E record's hours do not
depend on the current time. -/
theorem isActive_selects_endTime_computes_witness :
    calculateEmployeeHours (18 * 3600000) empScenarioE
      = calculateEmployeeHours 0 empScenarioE :=
  (isActive_selects_endTime_computes [empScenarioE] empScenarioE
    (18 * 3600000) 0).2.1 (by simp [empScenarioE])

/-- C10: for a fixed employee with a valid start, the historical hours are
monotone non-decreasing in the target time. -/
theorem historicalHours_mono_in_target (e : Employee) (s t1 t2 : Int)
    (hst : e.startTime = some (JsTime.valid s)) (h12 : t1 ≤ t2) :
    calculateHistoricalHours e t1 ≤ calculateHistoricalHours e t2 := by
  by_cases h2 : t2 < s
  · have h1 : t1 < s := lt_of_le_of_lt h12 h2
    simp [calculateHistoricalHours, hst, h1, h2]
  · by_cases h1 : t1 < s
    · have hz : calculateHistoricalHours e t1 = 0 := by
        simp [calculateHistoricalHours, hst, h1]
      rw [hz]
      exact calculateHistoricalHours_nonneg e t2
    · simp only [calculateHistoricalHours, hst, if_neg h1, if_neg h2]
      rcases hend : e.endTime with _ | en
      · exact hours_clamp_mono _ _ _
          (by exact_mod_cast sub_le_sub_right h12 s)
      · cases en with
        | invalid =>
          exact hours_clamp_mono _ _ _
            (by exact_mod_cast sub_le_sub_right h12 s)
        | valid env =>
          refine hours_clamp_mono _ _ _ ?_
          have heff : (if env < t1 then env else t1) ≤ (if env < t2 then env else t2) := by
            split_ifs <;> omega
          exact_mod_cast sub_le_sub_right heff s

/-- Witness for C10: Scenario E record between targets 12:00 and 16:00. -/
theorem historicalHours_mono_in_target_witness :
    calculateHistoricalHours empScenarioE (12 * 3600000)
      ≤ calculateHistoricalHours empScenarioE (16 * 3600000) :=
  historicalHours_mono_in_target empScenarioE (10 * 3600000)
    (12 * 3600000) (16 * 3600000) rfl (by norm_num)

end LabourLink
